import Mathlib

/-!
A shallow embedding of the data pipeline of flexynesis `data.py`
(`TripletMultiOmicDataset`, `MultiomicDataset`, `DataImporter`) together with
theorems about triplet sampling, label encoding, normalization, feature
harmonization, sample cleanup and label/sample alignment.

Modelling conventions: Python dictionaries are association lists, numpy/pandas
matrices are lists of lists of rationals, `NaN` is `Option.none`, a raised
exception is `Except.error`, and the unbounded `while` loop of the triplet
sampler is a fuel-indexed recursion whose `none` result means that the loop has
not terminated within the given number of iterations (so a result of `none` for
every fuel value means the loop never terminates).  Random draws
(`np.random.choice`) are modelled by universally quantified oracle arguments
that select an arbitrary element of the candidate list.  `np.sqrt` (used only
to turn fitted variances into the stored scale of a `StandardScaler`) is
abstracted as an explicit function argument `sqrtF`, so every theorem holds
for every square-root implementation.
-/

namespace Flexynesis

/-- Association-list lookup; models Python dictionary access by key. -/
def alookup {α : Type} : List (String × α) → String → Option α
  | [], _ => none
  | (k, v) :: rest, s => if k = s then some v else alookup rest s

/-- Ordered insert used by insertion sort. -/
def insertBy {α : Type} (le : α → α → Bool) (x : α) : List α → List α
  | [] => [x]
  | y :: ys => if le x y then x :: y :: ys else y :: insertBy le x ys

/-- Insertion sort by the given comparison. -/
def sortBy {α : Type} (le : α → α → Bool) : List α → List α
  | [] => []
  | x :: xs => insertBy le x (sortBy le xs)

/-- Sorted distinct elements; models `np.unique` and a canonical linearization
of a Python set of ordered values. -/
def sortedUniqueBy {α : Type} [DecidableEq α] (le : α → α → Bool) (l : List α) : List α :=
  (sortBy le l).dedup

/-- Pair each element of a list with its position, starting at `k`
(models `enumerate`). -/
def withIdx {α : Type} : ℕ → List α → List (ℕ × α)
  | _, [] => []
  | k, x :: xs => (k, x) :: withIdx (k + 1) xs

/-- Position of the first occurrence of `s` (0 when absent). -/
def posOf : List String → String → ℕ
  | [], _ => 0
  | x :: xs, s => if x = s then 0 else posOf xs s + 1

/-! ### TripletMultiOmicDataset -/

/-- `labels_set` of `TripletMultiOmicDataset.get_label_indices`:
the distinct values of the main variable (`set(labels.numpy())`). -/
def labelsSet (labels : List ℤ) : List ℤ :=
  sortedUniqueBy (fun a b => decide (a ≤ b)) labels

/-- `label_to_indices` of `TripletMultiOmicDataset.get_label_indices`:
the positions carrying a given label (`np.where(labels.numpy() == label)[0]`). -/
def labelToIndices (labels : List ℤ) (l : ℤ) : List ℕ :=
  (List.range labels.length).filter (fun i => decide (labels.getD i 0 = l))

/-- `np.random.choice` on a list: the oracle value `k` selects an element;
choosing from an empty candidate list raises a `ValueError`. -/
def choiceL {α : Type} (d : α) (k : ℕ) (l : List α) : Except String α :=
  if l.isEmpty then .error ("ValueError: a must be non-empty") else .ok (l.getD (k % l.length) d)

/-- The `while positive_index == index` loop of
`TripletMultiOmicDataset.__getitem__`: repeatedly draw from the candidate
list until the draw differs from `index`.  `t` counts the draws already made
(feeding the oracle), `fuel` bounds the modelled iterations: a `none` result
means the loop has not exited within `fuel` iterations. -/
def findPos (cands : List ℕ) (index : ℕ) (o : ℕ → ℕ) : ℕ → ℕ → Option (Except String ℕ)
  | _, 0 => none
  | t, fuel + 1 =>
    match choiceL 0 (o t) cands with
    | .error e => some (.error e)
    | .ok c => if c = index then findPos cands index o (t + 1) fuel else some (.ok c)

/-- `TripletMultiOmicDataset.__getitem__` reduced to its index bookkeeping:
the anchor label is the main-variable value at `index`; a positive index is
drawn (loop above) from the anchor label class; a negative label is drawn from
the remaining label values and a negative index from that label class.
Returns the chosen (positive index, negative index); the feature tensors of
the triplet are just the dataset rows at those indices. -/
def tripletGetItem (labels : List ℤ) (index : ℕ) (o : ℕ → ℕ) (n2 n3 fuel : ℕ) :
    Option (Except String (ℕ × ℕ)) :=
  match findPos (labelToIndices labels (labels.getD index 0)) index o 0 fuel with
  | none => none
  | some (.error e) => some (.error e)
  | some (.ok p) =>
    match choiceL 0 n2 ((labelsSet labels).filter (fun m => decide (¬ m = labels.getD index 0))) with
    | .error e => some (.error e)
    | .ok nl =>
      match choiceL 0 n3 (labelToIndices labels nl) with
      | .error e => some (.error e)
      | .ok ni => some (.ok (p, ni))

/-! ### MultiomicDataset -/

/-- `MultiomicDataset`: per-layer sample-major tensors (`dat`), per-variable
encoded label tensors (`ann`) and the sample identifiers. -/
structure MODS where
  dat : List (String × List (List ℚ))
  ann : List (String × List ℤ)
  samples : List String

/-- Pytorch tensor indexing on the first axis: indices in `[0, n)` address
rows directly, indices in `[-n, 0)` count from the end, anything else raises
an IndexError. -/
def tensorIndex {α : Type} (t : List α) (i : ℤ) : Except String α :=
  if h : 0 ≤ i ∧ i < (t.length : ℤ) then
    .ok (t.get ⟨i.toNat, by omega⟩)
  else if h2 : -(t.length : ℤ) ≤ i ∧ i < 0 then
    .ok (t.get ⟨(i + t.length).toNat, by omega⟩)
  else
    .error ("IndexError: index out of range")

/-- `{x: self.dat[x][index] for x in self.dat.keys()}`. -/
def subsetDat (i : ℤ) : List (String × List (List ℚ)) → Except String (List (String × List ℚ))
  | [] => .ok []
  | (n, t) :: rest => do
    let v ← tensorIndex t i
    let r ← subsetDat i rest
    .ok ((n, v) :: r)

/-- `{x: self.ann[x][index] for x in self.ann.keys()}`. -/
def subsetAnn (i : ℤ) : List (String × List ℤ) → Except String (List (String × ℤ))
  | [] => .ok []
  | (n, t) :: rest => do
    let v ← tensorIndex t i
    let r ← subsetAnn i rest
    .ok ((n, v) :: r)

/-- `MultiomicDataset.__getitem__`. -/
def getitemM (ds : MODS) (i : ℤ) : Except String (List (String × List ℚ) × List (String × ℤ)) := do
  let d ← subsetDat i ds.dat
  let a ← subsetAnn i ds.ann
  .ok (d, a)

/-- `MultiomicDataset.__len__`. -/
def lenM (ds : MODS) : ℕ := ds.samples.length

/-- A concrete two-sample dataset used to exercise `getitemM`. -/
def exMODS : MODS :=
  ⟨[("expr", [[1], [2]])], [("y", [0, 1])], ["a", "b"]⟩

/-! ### Rational statistics used by cleanup and the scalers -/

def qsum (l : List ℚ) : ℚ := l.foldr (· + ·) 0

def meanQ (l : List ℚ) : ℚ := qsum l / l.length

/-- Sample variance (`ddof = 1`, the pandas default for `var`/`std`); `none`
models the NaN produced on fewer than two values. -/
def varSamp (l : List ℚ) : Option ℚ :=
  if l.length < 2 then none
  else some (qsum (l.map (fun x => (x - meanQ l) * (x - meanQ l))) / ((l.length : ℚ) - 1))

/-- Population variance (`ddof = 0`, used by sklearn `StandardScaler`). -/
def varPop (l : List ℚ) : ℚ :=
  qsum (l.map (fun x => (x - meanQ l) * (x - meanQ l))) / l.length

def sortQ (l : List ℚ) : List ℚ := sortBy (fun a b => decide (a ≤ b)) l

/-- Median with averaging of the two middle values on even counts (pandas
median); `none` models the NaN median of an empty value list. -/
def medianOpt (l : List ℚ) : Option ℚ :=
  match l with
  | [] => none
  | _ :: _ =>
    let s := sortQ l
    let n := l.length
    if n % 2 = 1 then some (s.getD (n / 2) 0)
    else some ((s.getD (n / 2 - 1) 0 + s.getD (n / 2) 0) / 2)

def listMin (l : List ℚ) : ℚ :=
  match l with
  | [] => 0
  | x :: xs => xs.foldl min x

def listMax (l : List ℚ) : ℚ :=
  match l with
  | [] => 0
  | x :: xs => xs.foldl max x

/-! ### DataImporter.cleanup_data -/

/-- A feature-by-sample data frame with possibly missing (NaN) entries:
`cols` are the sample identifiers (column labels), each row is a feature
identifier with one optional value per sample. -/
structure NDF where
  cols : List String
  rows : List (String × List (Option ℚ))

/-- The non-missing values of a row or column. -/
def someVals (r : List (Option ℚ)) : List ℚ := r.filterMap id

/-- Fraction of missing entries of a feature row (`df.isna().mean(axis=1)`). -/
def naFrac (r : List (Option ℚ)) : ℚ := (r.countP (fun x => x.isNone) : ℚ) / r.length

/-- Steps 1-3 of `DataImporter.cleanup_data` on the rows of one layer:
drop features whose variance (over non-missing values) is not above the
variance threshold (a NaN variance compares false, so such features are
dropped), drop features whose missing fraction is not below the NA threshold,
then impute remaining missing values with the feature median. -/
def cleanRows (vt na : ℚ) (rows : List (String × List (Option ℚ))) :
    List (String × List (Option ℚ)) :=
  let step1 := rows.filter (fun r =>
    match varSamp (someVals r.2) with
    | none => false
    | some v => decide (vt < v))
  let step2 := step1.filter (fun r => decide (naFrac r.2 < na))
  step2.map (fun r => (r.1, r.2.map (fun x =>
    match x with
    | some v => some v
    | none => medianOpt (someVals r.2))))

/-- Column `j` of the rows of a layer. -/
def colAt (rows : List (String × List (Option ℚ))) (j : ℕ) : List (Option ℚ) :=
  rows.map (fun r => r.2.getD j none)

/-- One entry of the per-layer sample mask: the sample standard deviation of
the column (`ddof = 1`, skipping NaN) is nonzero and non-NaN; the standard
deviation is nonzero or NaN exactly when the variance is, so the test is
phrased on the variance. -/
def informativeCol (c : List (Option ℚ)) : Bool :=
  match varSamp (someVals c) with
  | none => false
  | some v => decide (¬ v = 0)

/-- The informative flag of sample column `j` of a layer. -/
def informativeAt (rows : List (String × List (Option ℚ))) (j : ℕ) : Bool :=
  informativeCol (colAt rows j)

/-- The per-layer boolean sample mask: a pandas Series indexed by sample name. -/
def layerMask (L : NDF) : List (String × Bool) :=
  (withIdx 0 L.cols).map (fun p => (p.2, informativeAt L.rows p.1))

/-- First pass of `cleanup_data`: feature cleanup on every layer. -/
def cleanupFirstPass (vt na : ℚ) (d : List (String × NDF)) : List (String × NDF) :=
  d.map (fun p => (p.1, ⟨p.2.cols, cleanRows vt na p.2.rows⟩))

/-- The list of per-layer sample masks computed by the first pass. -/
def cleanupMasks (vt na : ℚ) (d : List (String × NDF)) : List (List (String × Bool)) :=
  (cleanupFirstPass vt na d).map (fun p => layerMask p.2)

/-- `pd.DataFrame(sample_masks).all()` looked up at one sample name: the
conjunction over all layers, aligned by name; a name absent from a mask is
skipped (`skipna`), i.e. counts as true. -/
def commonMaskAt (masks : List (List (String × Bool))) (s : String) : Bool :=
  masks.all (fun m => (alookup m s).getD true)

/-- `cleaned_dfs[key].loc[:, common_mask]`: boolean masking of the columns,
aligned by column name, preserving the order of the columns of this layer. -/
def applyMask (L : NDF) (mk : String → Bool) : NDF :=
  ⟨L.cols.filter (fun s => mk s),
   L.rows.map (fun r => (r.1, ((L.cols.zip r.2).filter (fun p => mk p.1)).map Prod.snd))⟩

/-- `DataImporter.cleanup_data`. -/
def cleanupData (vt na : ℚ) (d : List (String × NDF)) : List (String × NDF) :=
  (cleanupFirstPass vt na d).map
    (fun p => (p.1, applyMask p.2 (fun s => commonMaskAt (cleanupMasks vt na d) s)))

/-- A concrete two-layer input for `cleanupData` whose layers hold the same
sample set with columns in different orders. -/
def exD7 : List (String × NDF) :=
  [("L1", ⟨["a", "b"], [("g1", [some 1, some 2]), ("g2", [some 5, some 3])]⟩),
   ("L2", ⟨["b", "a"], [("g1", [some 10, some 20]), ("g2", [some 7, some 4])]⟩)]

/-- The same two layers with identical column order. -/
def exD7b : List (String × NDF) :=
  [("L1", ⟨["a", "b"], [("g1", [some 1, some 2]), ("g2", [some 5, some 3])]⟩),
   ("L2", ⟨["a", "b"], [("g1", [some 10, some 20]), ("g2", [some 7, some 4])]⟩)]

/-! ### DataImporter.get_labels -/

/-- `dat[x][samples]`: select the named columns of a layer, in the given
order (the new column labels are exactly `names`). -/
def selectColsByName (L : NDF) (names : List String) : NDF :=
  ⟨names, L.rows.map (fun r => (r.1, names.map (fun s => (alookup (L.cols.zip r.2) s).getD none)))⟩

/-- `DataImporter.get_labels`: the working sample set is the intersection of
the samples common to all layer column sets with the annotation index
(a Python set, linearized here in annotation-index order); every layer and the
annotation table are subset to it.  No emptiness check is performed. -/
def getLabels (dat : List (String × NDF)) (ann : List (String × List String)) :
    List (String × NDF) × List (String × List String) × List String :=
  let samples := (ann.map Prod.fst).filter (fun s => dat.all (fun p => p.2.cols.contains s))
  (dat.map (fun p => (p.1, selectColsByName p.2 samples)),
   samples.map (fun s => (s, (alookup ann s).getD [])),
   samples)

/-! ### DataImporter.encode_labels -/

/-- Position of the first occurrence of a value, if any. -/
def firstIdx : List ℕ → ℕ → Option ℕ
  | [], _ => none
  | c :: cs, v => if c = v then some 0 else (firstIdx cs v).map (· + 1)

/-- The categories fitted by `OrdinalEncoder.fit` on one column: the sorted
distinct values (`np.unique`). -/
def fitCategories (values : List ℕ) : List ℕ :=
  sortedUniqueBy (fun a b => decide (a ≤ b)) values

/-- `OrdinalEncoder.transform` on one value, with
`handle_unknown="use_encoded_value", unknown_value=-1`: the position in the
fitted categories, or the sentinel `-1` for an unseen value (no exception). -/
def encodeVal (cats : List ℕ) (v : ℕ) : ℤ :=
  match firstIdx cats v with
  | some i => (i : ℤ)
  | none => -1

/-- The encoder registry of a `DataImporter` (`self.encoders`): variable name
to fitted categories. -/
abbrev EncState := List (String × List ℕ)

/-- `label_mappings[series.name]`: the code-to-label table rebuilt on every
call from the stored categories (`enumerate(categories_)`). -/
def labelMapOf (cats : List ℕ) : List (ℤ × ℕ) :=
  (withIdx 0 cats).map (fun p => ((p.1 : ℤ), p.2))

/-- `encode_column` inside `DataImporter.encode_labels`, on one categorical
column: the first call for a name fits an encoder and stores it, every later
call reuses the stored categories and never refits.  Returns the updated
registry, the integer codes of the column, and the code-to-label table. -/
def encodeColumn (s : EncState) (name : String) (values : List ℕ) :
    EncState × List ℤ × List (ℤ × ℕ) :=
  match alookup s name with
  | none =>
    let cats := fitCategories values
    (s ++ [(name, cats)], values.map (encodeVal cats), labelMapOf cats)
  | some cats => (s, values.map (encodeVal cats), labelMapOf cats)

/-- `DataImporter.encode_labels` restricted to the categorical columns of the
annotation table: fold `encodeColumn` over the columns, collecting codes and
code-to-label tables. -/
def encodeLabels (s : EncState) (df : List (String × List ℕ)) :
    EncState × List (String × List ℤ) × List (String × List (ℤ × ℕ)) :=
  match df with
  | [] => (s, [], [])
  | (name, values) :: rest =>
    let r1 := encodeColumn s name values
    let rr := encodeLabels r1.1 rest
    (rr.1, (name, r1.2.1) :: rr.2.1, (name, r1.2.2) :: rr.2.2)

/-! ### DataImporter.normalize_data -/

/-- A feature-by-sample numeric data frame (after imputation, no NaN). -/
structure FDF where
  rowIds : List String
  colIds : List String
  vals : List (List ℚ)
deriving DecidableEq

/-- Transpose of a list-of-rows matrix, given the number of columns. -/
def transposeM (m : List (List ℚ)) (w : ℕ) : List (List ℚ) :=
  (List.range w).map (fun j => m.map (fun r => r.getD j 0))

/-- `data[x].T`: the sample-major view handed to sklearn fit/transform. -/
def sampleMajor (F : FDF) : List (List ℚ) := transposeM F.vals F.colIds.length

def colMeans (m : List (List ℚ)) (w : ℕ) : List ℚ :=
  (List.range w).map (fun j => meanQ (m.map (fun r => r.getD j 0)))

def colVarsP (m : List (List ℚ)) (w : ℕ) : List ℚ :=
  (List.range w).map (fun j => varPop (m.map (fun r => r.getD j 0)))

def colMins (m : List (List ℚ)) (w : ℕ) : List ℚ :=
  (List.range w).map (fun j => listMin (m.map (fun r => r.getD j 0)))

def colMaxs (m : List (List ℚ)) (w : ℕ) : List ℚ :=
  (List.range w).map (fun j => listMax (m.map (fun r => r.getD j 0)))

/-- sklearn `_handle_zeros_in_scale`: a zero scale becomes one. -/
def handleZeros (v : ℚ) : ℚ := if v = 0 then 1 else v

/-- Fitted scaler state, tagged by kind, as stored in `self.scalers[x]`. -/
inductive Scaler
  | standard (mean scale : List ℚ)
  | minMax (mn scale : List ℚ)
deriving DecidableEq

/-- `StandardScaler().fit(data[x].T)`: per-feature mean and scale, where the
scale is `_handle_zeros_in_scale(np.sqrt(var))` and `sqrtF` abstracts
`np.sqrt`. -/
def stdFit (sqrtF : ℚ → ℚ) (F : FDF) : Scaler :=
  .standard (colMeans (sampleMajor F) F.rowIds.length)
    ((colVarsP (sampleMajor F) F.rowIds.length).map (fun v => handleZeros (sqrtF v)))

/-- `MinMaxScaler().fit(data[x].T)` with the default `(0, 1)` feature range:
`scale_ = 1 / _handle_zeros_in_scale(data_max_ - data_min_)` and
`min_ = 0 - data_min_ * scale_`. -/
def mmFit (F : FDF) : Scaler :=
  let mins := colMins (sampleMajor F) F.rowIds.length
  let maxs := colMaxs (sampleMajor F) F.rowIds.length
  let scale := (maxs.zip mins).map (fun p => 1 / handleZeros (p.1 - p.2))
  .minMax ((mins.zip scale).map (fun p => 0 - p.1 * p.2)) scale

/-- `transform` of a fitted scaler on one sample-major row:
`(x - mean) / scale` for the standard kind, `x * scale + min` for min-max. -/
def scaleRow (sc : Scaler) (row : List ℚ) : List ℚ :=
  match sc with
  | .standard mean scale => (row.zip (mean.zip scale)).map (fun p => (p.1 - p.2.1) / p.2.2)
  | .minMax mn scale => (row.zip (mn.zip scale)).map (fun p => p.1 * p.2.2 + p.2.1)

/-- `pd.DataFrame(self.scalers[x].transform(data[x].T), index=..., columns=...).T`:
transform the sample-major view and transpose back to feature-major, keeping
index and columns. -/
def transformF (sc : Scaler) (F : FDF) : FDF :=
  ⟨F.rowIds, F.colIds, transposeM ((sampleMajor F).map (scaleRow sc)) F.rowIds.length⟩

/-- The per-layer fitted scaler dictionary (`self.scalers`). -/
abbrev ScDict := List (String × Scaler)

def stdFitAll (sqrtF : ℚ → ℚ) (d : List (String × FDF)) : ScDict :=
  d.map (fun p => (p.1, stdFit sqrtF p.2))

def mmFitAll (d : List (String × FDF)) : ScDict :=
  d.map (fun p => (p.1, mmFit p.2))

def dfltScaler : Scaler := .standard [] []

/-- `{x: ... self.scalers[x].transform(data[x].T) ... for x in data.keys()}`:
a missing layer key raises a KeyError. -/
def transformAll (ps : ScDict) : List (String × FDF) → Except String (List (String × FDF))
  | [] => .ok []
  | (n, F) :: rest =>
    match alookup ps n with
    | none => .error ("KeyError")
    | some sc => do
      let r ← transformAll ps rest
      .ok ((n, transformF sc F) :: r)

/-- `DataImporter.normalize_data`: when `fit` is true the scalers are
(re)fitted from `data` according to `scalerType` (any unknown kind raises a
ValueError); when `fit` is false the stored scalers are used unchanged (using
them unfitted raises a TypeError).  The data is then transformed with the
resulting scaler dictionary, which is returned together with the result. -/
def normalizeData (sqrtF : ℚ → ℚ) (scalers : Option ScDict) (data : List (String × FDF))
    (scalerType : String) (fit : Bool) :
    Except String (Option ScDict × List (String × FDF)) := do
  let scalers2 ←
    if fit then
      if scalerType = "standard" then Except.ok (some (stdFitAll sqrtF data))
      else if scalerType = "min_max" then Except.ok (some (mmFitAll data))
      else Except.error ("ValueError: Invalid scaler_type. Choose standard or min_max.")
    else Except.ok scalers
  match scalers2 with
  | none => Except.error ("TypeError: scalers have not been fitted")
  | some ps => do
    let out ← transformAll ps data
    Except.ok (scalers2, out)

/-- The scaler state part of a `normalizeData`-style result (`none` when the
call raised). -/
def exceptStateOf {γ : Type} (r : Except String (Option ScDict × γ)) : Option (Option ScDict) :=
  match r with
  | .ok p => some p.1
  | .error _ => none

/-- The kind tag of a fitted scaler (which sklearn class it came from). -/
def scalerKind (sc : Scaler) : String :=
  match sc with
  | .standard _ _ => "standard-kind"
  | .minMax _ _ => "minmax-kind"

/-! ### DataImporter configuration and the import_data normalization step -/

/-- The constructor configuration surface of `DataImporter.__init__`: exactly
its parameter list.  There is no scaler-kind parameter. -/
structure DIConfig where
  path : String
  dataTypes : List String
  logTransform : Bool
  concatenate : Bool
  minFeatures : Option ℕ
  topPercentile : Option ℚ
  varianceThreshold : ℚ
  naThreshold : ℚ
deriving DecidableEq

/-- The scaler kind `import_data` passes to `normalize_data`: the string
literal `"standard"` on both calls, independent of the configuration. -/
def importScalerType (_c : DIConfig) : String := "standard"

/-- Lines of `import_data` performing normalization: fit-and-transform the
training cohort, then transform the test cohort without fitting, both with the
hardcoded scaler kind. -/
def importNormalizeStep (sqrtF : ℚ → ℚ) (c : DIConfig) (s : Option ScDict)
    (train test : List (String × FDF)) :
    Except String (Option ScDict × List (String × FDF) × List (String × FDF)) := do
  let r1 ← normalizeData sqrtF s train (importScalerType c) true
  let r2 ← normalizeData sqrtF r1.1 test (importScalerType c) false
  .ok (r2.1, r1.2, r2.2)

/-- A concrete one-layer training cohort (one feature, two samples). -/
def exTrainF : List (String × FDF) := [("g", ⟨["f1"], ["a", "b"], [[0, 2]]⟩)]

/-- A concrete one-layer test cohort (one feature, one sample). -/
def exTestF : List (String × FDF) := [("g", ⟨["f1"], ["c"], [[4]]⟩)]

/-! ### DataImporter.harmonize -/

/-- `dat1[x].index.intersection(dat2[x].index)`: the common identifiers in
the order of the calling (training) index. -/
def indexIntersection (idx1 idx2 : List String) : List String :=
  idx1.filter (fun s => idx2.contains s)

/-- `df.loc[ids]` on a feature-major frame with unique index: the result
index is exactly `ids`, each row looked up by identifier. -/
def locRows (F : FDF) (ids : List String) : FDF :=
  ⟨ids, F.colIds, ids.map (fun i => (alookup (F.rowIds.zip F.vals) i).getD [])⟩

/-- `common_features` of `DataImporter.harmonize`, computed over the
configured data types; a configured layer missing from either cohort raises a
KeyError. -/
def commonFeatures : List String → List (String × FDF) → List (String × FDF) →
    Except String (List (String × List String))
  | [], _, _ => .ok []
  | x :: xs, dat1, dat2 =>
    match alookup dat1 x, alookup dat2 x with
    | some F1, some F2 => do
      let r ← commonFeatures xs dat1 dat2
      .ok ((x, indexIntersection F1.rowIds F2.rowIds) :: r)
    | _, _ => .error ("KeyError")

/-- `{x: dat[x].loc[common_features[x]] for x in dat.keys()}`. -/
def subsetToCommon (common : List (String × List String)) :
    List (String × FDF) → Except String (List (String × FDF))
  | [] => .ok []
  | (n, F) :: rest =>
    match alookup common n with
    | none => .error ("KeyError")
    | some ids => do
      let r ← subsetToCommon common rest
      .ok ((n, locRows F ids) :: r)

/-- `DataImporter.harmonize`. -/
def harmonize (dataTypes : List String) (dat1 dat2 : List (String × FDF)) :
    Except String (List (String × FDF) × List (String × FDF)) := do
  let common ← commonFeatures dataTypes dat1 dat2
  let d1 ← subsetToCommon common dat1
  let d2 ← subsetToCommon common dat2
  .ok (d1, d2)

/-! ### Helper lemmas -/

theorem getD_mem {α : Type} (l : List α) (n : ℕ) (d : α) (h : n < l.length) :
    l.getD n d ∈ l := by
  induction l generalizing n with
  | nil => simp at h
  | cons x xs ih =>
    cases n with
    | zero => simp [List.getD]
    | succ m =>
      have hm := ih m (by simpa using h)
      simp only [List.getD] at hm ⊢
      simp only [List.get?] at hm ⊢
      exact List.mem_cons_of_mem x hm

theorem choiceL_ok_mem {α : Type} (d : α) (k : ℕ) (l : List α) (x : α)
    (h : choiceL d k l = .ok x) : x ∈ l := by
  unfold choiceL at h
  by_cases he : l.isEmpty
  · simp [he] at h
  · simp only [he, Bool.false_eq_true, if_false, Except.ok.injEq] at h
    subst h
    apply getD_mem
    apply Nat.mod_lt
    have : l ≠ [] := by
      intro hnil
      subst hnil
      simp at he
    exact List.length_pos.mpr this

theorem findPos_ok_spec (cands : List ℕ) (index : ℕ) (o : ℕ → ℕ) :
    ∀ (fuel t c : ℕ), findPos cands index o t fuel = some (.ok c) →
      c ∈ cands ∧ c ≠ index := by
  intro fuel
  induction fuel with
  | zero => intro t c h; simp [findPos] at h
  | succ n ih =>
    intro t c h
    simp only [findPos] at h
    cases hc : choiceL 0 (o t) cands with
    | error e => rw [hc] at h; simp at h
    | ok c2 =>
      rw [hc] at h
      by_cases hce : c2 = index
      · simp only [hce, if_true] at h
        exact ih (t + 1) c h
      · simp only [hce, if_false, Option.some.injEq, Except.ok.injEq] at h
        subst h
        exact ⟨choiceL_ok_mem 0 (o t) cands c2 hc, hce⟩

theorem findPos_singleton (index : ℕ) (o : ℕ → ℕ) :
    ∀ (fuel t : ℕ), findPos [index] index o t fuel = none := by
  intro fuel
  induction fuel with
  | zero => intro t; rfl
  | succ n ih =>
    intro t
    simp only [findPos]
    have hc : choiceL 0 (o t) [index] = .ok index := by
      unfold choiceL
      simp [Nat.mod_one]
    rw [hc]
    simp [ih]

theorem tripletGetItem_hangs_of_singleton (labels : List ℤ) (index : ℕ) (o : ℕ → ℕ)
    (n2 n3 fuel : ℕ)
    (h : labelToIndices labels (labels.getD index 0) = [index]) :
    tripletGetItem labels index o n2 n3 fuel = none := by
  unfold tripletGetItem
  rw [h, findPos_singleton index o fuel 0]

theorem mem_labelToIndices (labels : List ℤ) (l : ℤ) (i : ℕ)
    (h : i ∈ labelToIndices labels l) : labels.getD i 0 = l ∧ i < labels.length := by
  unfold labelToIndices at h
  rw [List.mem_filter] at h
  exact ⟨of_decide_eq_true h.2, List.mem_range.mp h.1⟩

/-- C1: a main-variable label value carried by exactly one sample (here label 5,
carried only by the anchor at index 0 of `[5, 7, 7]`) makes
`TripletMultiOmicDataset.__getitem__` loop forever re-drawing the positive
index: for every oracle and every amount of fuel the loop neither terminates
nor raises, so no data-consistency error is surfaced, contrary to the spec. -/
theorem triplet_singleton_class_loops_forever (o : ℕ → ℕ) (n2 n3 fuel : ℕ) :
    tripletGetItem [5, 7, 7] 0 o n2 n3 fuel = none :=
  tripletGetItem_hangs_of_singleton [5, 7, 7] 0 o n2 n3 fuel (by decide)

/-- C2: every triplet actually returned by `TripletMultiOmicDataset.__getitem__`
(at a valid anchor whose label class has at least two members, with at least two
distinct label values) satisfies the triplet invariants: the positive index
differs from the anchor and carries the anchor label, and the negative sample
carries a different label. -/
theorem triplet_invariants (labels : List ℤ) (index p ni : ℕ) (o : ℕ → ℕ) (n2 n3 fuel : ℕ)
    (hidx : index < labels.length)
    (hpos : 2 ≤ (labelToIndices labels (labels.getD index 0)).length)
    (hneg : 2 ≤ (labelsSet labels).length)
    (hres : tripletGetItem labels index o n2 n3 fuel = some (.ok (p, ni))) :
    p ≠ index ∧ labels.getD p 0 = labels.getD index 0 ∧
      labels.getD ni 0 ≠ labels.getD index 0 := by
  unfold tripletGetItem at hres
  cases hf : findPos (labelToIndices labels (labels.getD index 0)) index o 0 fuel with
  | none => rw [hf] at hres; simp at hres
  | some r =>
    rw [hf] at hres
    cases r with
    | error e => simp at hres
    | ok p2 =>
      have hp2 := findPos_ok_spec (labelToIndices labels (labels.getD index 0)) index o fuel 0 p2 hf
      dsimp only at hres
      cases hcl : choiceL 0 n2
          ((labelsSet labels).filter (fun m => decide (¬ m = labels.getD index 0))) with
      | error e => rw [hcl] at hres; simp at hres
      | ok nl =>
        rw [hcl] at hres
        dsimp only at hres
        have hnl := choiceL_ok_mem _ n2 _ nl hcl
        rw [List.mem_filter] at hnl
        have hnl2 : ¬ nl = labels.getD index 0 := of_decide_eq_true hnl.2
        cases hcl2 : choiceL 0 n3 (labelToIndices labels nl) with
        | error e => rw [hcl2] at hres; simp at hres
        | ok ni2 =>
          rw [hcl2] at hres
          simp only [Option.some.injEq, Except.ok.injEq, Prod.mk.injEq] at hres
          obtain ⟨hpp, hnn⟩ := hres
          have hni := choiceL_ok_mem _ n3 _ ni2 hcl2
          have hni2 := mem_labelToIndices labels nl ni2 hni
          have hpl := mem_labelToIndices labels (labels.getD index 0) p2 hp2.1
          rw [← hpp, ← hnn]
          exact ⟨hp2.2, hpl.1, by rw [hni2.1]; exact hnl2⟩

/-- Witness for C2 at a concrete dataset: labels `[0, 0, 1]`, anchor 0, an
oracle drawing position 1 first, fuel 2; the returned triplet is `(1, 2)`. -/
theorem triplet_invariants_witness :
    0 < ([0, 0, 1] : List ℤ).length ∧
    2 ≤ (labelToIndices [0, 0, 1] (([0, 0, 1] : List ℤ).getD 0 0)).length ∧
    2 ≤ (labelsSet [0, 0, 1]).length ∧
    tripletGetItem [0, 0, 1] 0 (fun _ => 1) 0 0 2 = some (.ok (1, 2)) ∧
    (1 ≠ 0 ∧ ([0, 0, 1] : List ℤ).getD 1 0 = ([0, 0, 1] : List ℤ).getD 0 0 ∧
      ([0, 0, 1] : List ℤ).getD 2 0 ≠ ([0, 0, 1] : List ℤ).getD 0 0) :=
  ⟨by decide, by decide, by decide, by rfl,
   triplet_invariants [0, 0, 1] 0 1 2 (fun _ => 1) 0 0 2 (by decide) (by decide) (by decide)
     (by rfl)⟩

/-- C3: with two layers whose sample columns are disjoint and an annotation
table indexing yet another sample, the intersection is empty, and
`DataImporter.get_labels` silently returns empty layer matrices, an empty
annotation table and an empty sample list instead of raising a
data-consistency error. -/
theorem get_labels_empty_intersection_silent :
    getLabels
      [("expr", ⟨["s1"], [("g1", [some 1])]⟩), ("mut", ⟨["s2"], [("g1", [some 2])]⟩)]
      [("s3", ["resp"])] =
      ([("expr", ⟨[], [("g1", [])]⟩), ("mut", ⟨[], [("g1", [])]⟩)], [], []) := by
  rfl

/-! ### Torch indexing lemmas for MultiomicDataset -/

theorem getD_eq_get {α : Type} (t : List α) (n : ℕ) (d : α) (h : n < t.length) :
    t.getD n d = t.get ⟨n, h⟩ := by
  simp [List.getD, List.getElem?_eq_getElem h]

theorem tensorIndex_in_range {α : Type} (t : List α) (i : ℤ) (d : α)
    (h1 : 0 ≤ i) (h2 : i < (t.length : ℤ)) :
    tensorIndex t i = .ok (t.getD i.toNat d) := by
  unfold tensorIndex
  rw [dif_pos ⟨h1, h2⟩]
  rw [getD_eq_get t i.toNat d (by omega)]

theorem tensorIndex_neg_wrap {α : Type} (t : List α) (i : ℤ) (d : α)
    (h1 : -(t.length : ℤ) ≤ i) (h2 : i < 0) :
    tensorIndex t i = .ok (t.getD (i + t.length).toNat d) := by
  unfold tensorIndex
  rw [dif_neg (by omega), dif_pos ⟨h1, h2⟩]
  rw [getD_eq_get t (i + t.length).toNat d (by omega)]

theorem tensorIndex_out_of_range {α : Type} (t : List α) (i : ℤ)
    (h : i < -(t.length : ℤ) ∨ (t.length : ℤ) ≤ i) :
    tensorIndex t i = .error ("IndexError: index out of range") := by
  unfold tensorIndex
  rw [dif_neg (by omega), dif_neg (by omega)]

theorem subsetDat_map (i : ℤ) (n j : ℕ) :
    ∀ (d : List (String × List (List ℚ))),
      (∀ p ∈ d, (p.2).length = n) →
      (∀ t : List (List ℚ), t.length = n → tensorIndex t i = .ok (t.getD j [])) →
      subsetDat i d = .ok (d.map (fun p => (p.1, p.2.getD j []))) := by
  intro d
  induction d with
  | nil => intro _ _; rfl
  | cons p rest ih =>
    intro hd ht
    obtain ⟨nm, t⟩ := p
    have h1 : tensorIndex t i = .ok (t.getD j []) := ht t (hd (nm, t) (List.mem_cons_self _ _))
    have h2 := ih (fun q hq => hd q (List.mem_cons_of_mem _ hq)) ht
    simp only [subsetDat, h1, h2, Except.bind]
    rfl

theorem subsetAnn_map (i : ℤ) (n j : ℕ) :
    ∀ (d : List (String × List ℤ)),
      (∀ p ∈ d, (p.2).length = n) →
      (∀ t : List ℤ, t.length = n → tensorIndex t i = .ok (t.getD j 0)) →
      subsetAnn i d = .ok (d.map (fun p => (p.1, p.2.getD j 0))) := by
  intro d
  induction d with
  | nil => intro _ _; rfl
  | cons p rest ih =>
    intro hd ht
    obtain ⟨nm, t⟩ := p
    have h1 : tensorIndex t i = .ok (t.getD j 0) := ht t (hd (nm, t) (List.mem_cons_self _ _))
    have h2 := ih (fun q hq => hd q (List.mem_cons_of_mem _ hq)) ht
    simp only [subsetAnn, h1, h2, Except.bind]
    rfl

theorem subsetDat_err (i : ℤ) (n : ℕ) (msg : String) (d : List (String × List (List ℚ)))
    (hd : ∀ p ∈ d, (p.2).length = n) (hne : d ≠ [])
    (ht : ∀ t : List (List ℚ), t.length = n → tensorIndex t i = .error msg) :
    subsetDat i d = .error msg := by
  cases d with
  | nil => exact absurd rfl hne
  | cons p rest =>
    obtain ⟨nm, t⟩ := p
    have h1 : tensorIndex t i = .error msg := ht t (hd (nm, t) (List.mem_cons_self _ _))
    simp only [subsetDat, h1, Except.bind]
    rfl

/-- C9 (amended): `MultiomicDataset.__getitem__` follows torch tensor-index
semantics, not plain `[0, n)` semantics: an index in `[0, n)` returns the
per-layer feature vectors and per-variable label values of sample `i`; a
negative index in `[-n, 0)` wraps around and returns sample `n + i` (no
error); only indices below `-n` or at least `n` raise an IndexError. -/
theorem getitem_torch_index_semantics (ds : MODS) (i : ℤ)
    (hd : ∀ p ∈ ds.dat, (p.2).length = ds.samples.length)
    (ha : ∀ p ∈ ds.ann, (p.2).length = ds.samples.length)
    (hne : ds.dat ≠ []) :
    (0 ≤ i ∧ i < (ds.samples.length : ℤ) →
      getitemM ds i = .ok (ds.dat.map (fun p => (p.1, p.2.getD i.toNat [])),
        ds.ann.map (fun p => (p.1, p.2.getD i.toNat 0)))) ∧
    (-(ds.samples.length : ℤ) ≤ i ∧ i < 0 →
      getitemM ds i = .ok
        (ds.dat.map (fun p => (p.1, p.2.getD (i + ds.samples.length).toNat [])),
         ds.ann.map (fun p => (p.1, p.2.getD (i + ds.samples.length).toNat 0)))) ∧
    ((i < -(ds.samples.length : ℤ) ∨ (ds.samples.length : ℤ) ≤ i) →
      getitemM ds i = .error ("IndexError: index out of range")) := by
  refine ⟨fun h => ?_, fun h => ?_, fun h => ?_⟩
  · have hsd := subsetDat_map i ds.samples.length i.toNat ds.dat hd
      (fun t htl => tensorIndex_in_range t i [] h.1 (by rw [htl]; exact h.2))
    have hsa := subsetAnn_map i ds.samples.length i.toNat ds.ann ha
      (fun t htl => tensorIndex_in_range t i 0 h.1 (by rw [htl]; exact h.2))
    simp only [getitemM, hsd, hsa, Except.bind]
    rfl
  · have hsd := subsetDat_map i ds.samples.length (i + ds.samples.length).toNat ds.dat hd
      (fun t htl => by
        have := tensorIndex_neg_wrap t i ([] : List ℚ) (by rw [htl]; exact h.1) h.2
        rw [this, htl])
    have hsa := subsetAnn_map i ds.samples.length (i + ds.samples.length).toNat ds.ann ha
      (fun t htl => by
        have := tensorIndex_neg_wrap t i (0 : ℤ) (by rw [htl]; exact h.1) h.2
        rw [this, htl])
    simp only [getitemM, hsd, hsa, Except.bind]
    rfl
  · have hsd := subsetDat_err i ds.samples.length ("IndexError: index out of range") ds.dat hd hne
      (fun t htl => tensorIndex_out_of_range t i (by rw [htl]; exact h))
    simp only [getitemM, hsd, Except.bind]
    rfl

/-- Witness for C9 (amended) at the concrete dataset `exMODS` and index 0. -/
theorem getitem_torch_index_semantics_witness :
    (∀ p ∈ exMODS.dat, (p.2).length = exMODS.samples.length) ∧
    (∀ p ∈ exMODS.ann, (p.2).length = exMODS.samples.length) ∧
    exMODS.dat ≠ [] ∧
    ((0 ≤ (0 : ℤ) ∧ (0 : ℤ) < (exMODS.samples.length : ℤ) →
      getitemM exMODS 0 = .ok (exMODS.dat.map (fun p => (p.1, p.2.getD (0 : ℤ).toNat [])),
        exMODS.ann.map (fun p => (p.1, p.2.getD (0 : ℤ).toNat 0)))) ∧
    (-(exMODS.samples.length : ℤ) ≤ (0 : ℤ) ∧ (0 : ℤ) < 0 →
      getitemM exMODS 0 = .ok
        (exMODS.dat.map (fun p => (p.1, p.2.getD ((0 : ℤ) + exMODS.samples.length).toNat [])),
         exMODS.ann.map (fun p => (p.1, p.2.getD ((0 : ℤ) + exMODS.samples.length).toNat 0)))) ∧
    (((0 : ℤ) < -(exMODS.samples.length : ℤ) ∨ (exMODS.samples.length : ℤ) ≤ (0 : ℤ)) →
      getitemM exMODS 0 = .error ("IndexError: index out of range"))) :=
  ⟨by decide, by decide, by decide,
   getitem_torch_index_semantics exMODS 0 (by decide) (by decide) (by decide)⟩

/-- C9 counterexample: on the two-sample dataset `exMODS`, the negative index
`-1` (outside `[0, 2)`) does not fail: it wraps around torch-style and returns
the last sample, refuting the claim that every index outside `[0, n)` raises
an out-of-range error. -/
theorem getitem_negative_index_counterexample :
    getitemM exMODS (-1) = .ok ([("expr", [2])], [("y", 1)]) := by
  rfl

/-! ### Encoder lemmas -/

theorem mem_insertBy {α : Type} (le : α → α → Bool) (x a : α) (l : List α) :
    a ∈ insertBy le x l ↔ a = x ∨ a ∈ l := by
  induction l with
  | nil => simp [insertBy]
  | cons y ys ih =>
    unfold insertBy
    by_cases h : le x y
    · simp [h]
    · simp only [h, Bool.false_eq_true, if_false, List.mem_cons, ih]
      tauto

theorem mem_sortBy {α : Type} (le : α → α → Bool) (a : α) (l : List α) :
    a ∈ sortBy le l ↔ a ∈ l := by
  induction l with
  | nil => simp [sortBy]
  | cons x xs ih =>
    unfold sortBy
    rw [mem_insertBy, ih, List.mem_cons]

theorem mem_sortedUniqueBy {α : Type} [DecidableEq α] (le : α → α → Bool) (a : α) (l : List α) :
    a ∈ sortedUniqueBy le l ↔ a ∈ l := by
  unfold sortedUniqueBy
  rw [List.mem_dedup, mem_sortBy]

theorem alookup_append_of_none {α : Type} (s : List (String × α)) (name : String) (v : α)
    (h : alookup s name = none) : alookup (s ++ [(name, v)]) name = some v := by
  induction s with
  | nil => simp [alookup]
  | cons p rest ih =>
    obtain ⟨k, w⟩ := p
    simp only [alookup, List.cons_append] at h ⊢
    by_cases hk : k = name
    · rw [if_pos hk] at h
      exact absurd h (by simp)
    · rw [if_neg hk] at h ⊢
      exact ih h

theorem firstIdx_none_of_not_mem (l : List ℕ) (v : ℕ) (h : v ∉ l) : firstIdx l v = none := by
  induction l with
  | nil => rfl
  | cons c cs ih =>
    unfold firstIdx
    have hcv : ¬ c = v := fun hc => h (hc ▸ List.mem_cons_self c cs)
    rw [if_neg hcv, ih (fun hm => h (List.mem_cons_of_mem c hm))]
    rfl

theorem encodeVal_unseen (vs : List ℕ) (v : ℕ) (h : v ∉ vs) :
    encodeVal (fitCategories vs) v = -1 := by
  unfold encodeVal
  rw [firstIdx_none_of_not_mem]
  intro hm
  exact h ((mem_sortedUniqueBy _ v vs).mp hm)

/-- C5: for one categorical variable, the first `encode_labels`-style call fits
an ordinal encoder (storing the sorted distinct categories under the variable
name) and every later call reuses the stored encoder without refitting: the
registry is unchanged by the second call, the second call encodes with exactly
the categories fitted on the first call (so previously-seen categories keep
their codes), and a category unseen at fit time maps to the sentinel `-1`
instead of raising. -/
theorem encode_labels_fit_once_reuse (s0 : EncState) (name : String) (vs1 vs2 : List ℕ) (v : ℕ)
    (h0 : alookup s0 name = none) (hv : v ∉ vs1) :
    (encodeColumn s0 name vs1).1 = s0 ++ [(name, fitCategories vs1)] ∧
    (encodeColumn s0 name vs1).2.1 = vs1.map (encodeVal (fitCategories vs1)) ∧
    (encodeColumn (encodeColumn s0 name vs1).1 name vs2).1 = (encodeColumn s0 name vs1).1 ∧
    (encodeColumn (encodeColumn s0 name vs1).1 name vs2).2.1 =
      vs2.map (encodeVal (fitCategories vs1)) ∧
    encodeVal (fitCategories vs1) v = -1 := by
  have h1 : encodeColumn s0 name vs1 =
      (s0 ++ [(name, fitCategories vs1)], vs1.map (encodeVal (fitCategories vs1)),
       labelMapOf (fitCategories vs1)) := by
    unfold encodeColumn
    rw [h0]
  have h2 : alookup (s0 ++ [(name, fitCategories vs1)]) name = some (fitCategories vs1) :=
    alookup_append_of_none s0 name (fitCategories vs1) h0
  refine ⟨by rw [h1], by rw [h1], ?_, ?_, encodeVal_unseen vs1 v hv⟩
  · rw [h1]
    unfold encodeColumn
    rw [h2]
  · rw [h1]
    unfold encodeColumn
    rw [h2]

/-- Witness for C5: empty registry, variable `y`, training column `[2, 1, 2]`
(fitting categories `[1, 2]`), test column `[1, 3]`, unseen category 3. -/
theorem encode_labels_fit_once_reuse_witness :
    alookup ([] : EncState) ("y") = none ∧ (3 : ℕ) ∉ ([2, 1, 2] : List ℕ) ∧
    ((encodeColumn [] ("y") [2, 1, 2]).1 = [] ++ [(("y" : String), fitCategories [2, 1, 2])] ∧
     (encodeColumn [] ("y") [2, 1, 2]).2.1 =
       ([2, 1, 2] : List ℕ).map (encodeVal (fitCategories [2, 1, 2])) ∧
     (encodeColumn (encodeColumn [] ("y") [2, 1, 2]).1 ("y") [1, 3]).1 =
       (encodeColumn [] ("y") [2, 1, 2]).1 ∧
     (encodeColumn (encodeColumn [] ("y") [2, 1, 2]).1 ("y") [1, 3]).2.1 =
       ([1, 3] : List ℕ).map (encodeVal (fitCategories [2, 1, 2])) ∧
     encodeVal (fitCategories [2, 1, 2]) 3 = -1) :=
  ⟨by decide, by decide,
   encode_labels_fit_once_reuse [] ("y") [2, 1, 2] [1, 3] 3 (by decide) (by decide)⟩

/-! ### Label-mapping lemmas -/

theorem withIdx_map_snd {α : Type} : ∀ (l : List α) (k : ℕ), (withIdx k l).map Prod.snd = l := by
  intro l
  induction l with
  | nil => intro k; rfl
  | cons x xs ih =>
    intro k
    simp only [withIdx, List.map_cons, ih]

theorem withIdx_map_int_fst {α : Type} :
    ∀ (l : List α) (k : ℕ), (withIdx k l).map (fun p => ((p.1 : ℕ) : ℤ)) =
      (List.range l.length).map (fun i : ℕ => ((k + i : ℕ) : ℤ)) := by
  intro l
  induction l with
  | nil => intro k; rfl
  | cons x xs ih =>
    intro k
    simp only [withIdx, List.map_cons, List.length_cons, List.range_succ_eq_map,
      List.map_map, ih]
    have hfg : ((fun i : ℕ => ((k + i : ℕ) : ℤ)) ∘ Nat.succ) =
        (fun i : ℕ => ((k + 1 + i : ℕ) : ℤ)) := by
      funext i
      simp only [Function.comp]
      congr 1
      omega
    rw [hfg]
    norm_num

theorem labelMapOf_fst (cats : List ℕ) :
    (labelMapOf cats).map Prod.fst = (List.range cats.length).map (fun i : ℕ => (i : ℤ)) := by
  unfold labelMapOf
  rw [List.map_map]
  have h1 : (Prod.fst ∘ fun p : ℕ × ℕ => ((p.1 : ℤ), p.2)) = fun p : ℕ × ℕ => ((p.1 : ℕ) : ℤ) := by
    funext p
    rfl
  rw [h1, withIdx_map_int_fst cats 0]
  have h2 : (fun i : ℕ => ((0 + i : ℕ) : ℤ)) = fun i : ℕ => (i : ℤ) := by
    funext i
    norm_num
  rw [h2]

theorem labelMapOf_snd (cats : List ℕ) : (labelMapOf cats).map Prod.snd = cats := by
  unfold labelMapOf
  rw [List.map_map]
  have h1 : (Prod.snd ∘ fun p : ℕ × ℕ => ((p.1 : ℤ), p.2)) = (Prod.snd : ℕ × ℕ → ℕ) := by
    funext p
    rfl
  rw [h1, withIdx_map_snd cats 0]

/-- C10: the code-to-label table produced for a categorical variable contains
exactly the categories fitted on the first (training) call — its values are the
fitted categories, which are the distinct values of the training column — keyed
by the consecutive codes `0, 1, ...`; the second (test) call rebuilds the same
table from the stored encoder, and the sentinel `-1` is never a key. -/
theorem label_mappings_exact_fit_categories (s0 : EncState) (name : String) (vs1 vs2 : List ℕ)
    (h0 : alookup s0 name = none) :
    (encodeColumn s0 name vs1).2.2 = labelMapOf (fitCategories vs1) ∧
    (encodeColumn (encodeColumn s0 name vs1).1 name vs2).2.2 = labelMapOf (fitCategories vs1) ∧
    (labelMapOf (fitCategories vs1)).map Prod.snd = fitCategories vs1 ∧
    (∀ c : ℕ, c ∈ fitCategories vs1 ↔ c ∈ vs1) ∧
    (labelMapOf (fitCategories vs1)).map Prod.fst =
      (List.range (fitCategories vs1).length).map (fun i : ℕ => (i : ℤ)) ∧
    (-1 : ℤ) ∉ (labelMapOf (fitCategories vs1)).map Prod.fst := by
  have h1 : encodeColumn s0 name vs1 =
      (s0 ++ [(name, fitCategories vs1)], vs1.map (encodeVal (fitCategories vs1)),
       labelMapOf (fitCategories vs1)) := by
    unfold encodeColumn
    rw [h0]
  have h2 : alookup (s0 ++ [(name, fitCategories vs1)]) name = some (fitCategories vs1) :=
    alookup_append_of_none s0 name (fitCategories vs1) h0
  refine ⟨by rw [h1], ?_, labelMapOf_snd _, fun c => mem_sortedUniqueBy _ c vs1,
    labelMapOf_fst _, ?_⟩
  · rw [h1]
    unfold encodeColumn
    rw [h2]
  · rw [labelMapOf_fst]
    simp only [List.mem_map, List.mem_range]
    rintro ⟨i, _, hi⟩
    omega

/-- Witness for C10 at the training column `[2, 1, 2]` (categories `[1, 2]`)
and test column `[1, 3]`. -/
theorem label_mappings_exact_fit_categories_witness :
    alookup ([] : EncState) ("y") = none ∧
    ((encodeColumn [] ("y") [2, 1, 2]).2.2 = labelMapOf (fitCategories [2, 1, 2]) ∧
     (encodeColumn (encodeColumn [] ("y") [2, 1, 2]).1 ("y") [1, 3]).2.2 =
       labelMapOf (fitCategories [2, 1, 2]) ∧
     (labelMapOf (fitCategories [2, 1, 2])).map Prod.snd = fitCategories [2, 1, 2] ∧
     (∀ c : ℕ, c ∈ fitCategories [2, 1, 2] ↔ c ∈ ([2, 1, 2] : List ℕ)) ∧
     (labelMapOf (fitCategories [2, 1, 2])).map Prod.fst =
       (List.range (fitCategories [2, 1, 2]).length).map (fun i : ℕ => (i : ℤ)) ∧
     (-1 : ℤ) ∉ (labelMapOf (fitCategories [2, 1, 2])).map Prod.fst) :=
  ⟨by decide, label_mappings_exact_fit_categories [] ("y") [2, 1, 2] [1, 3] (by decide)⟩

/-! ### Scaler-dictionary lemmas -/

theorem alookup_isSome_of_mem_keys {α : Type} :
    ∀ (d : List (String × α)) (x : String), x ∈ d.map Prod.fst → (alookup d x).isSome := by
  intro d
  induction d with
  | nil => intro x hx; simp at hx
  | cons p rest ih =>
    intro x hx
    obtain ⟨k, w⟩ := p
    simp only [alookup]
    by_cases hk : k = x
    · rw [if_pos hk]
      rfl
    · rw [if_neg hk]
      apply ih
      simp only [List.map_cons, List.mem_cons] at hx
      cases hx with
      | inl h => exact absurd h.symm hk
      | inr h => exact h

theorem alookup_map_pair {α β : Type} (g : String → α → β) :
    ∀ (d : List (String × α)) (x : String),
      alookup (d.map (fun p => (p.1, g p.1 p.2))) x = (alookup d x).map (g x) := by
  intro d
  induction d with
  | nil => intro x; rfl
  | cons p rest ih =>
    intro x
    obtain ⟨k, w⟩ := p
    simp only [List.map_cons, alookup]
    by_cases hk : k = x
    · subst hk
      rw [if_pos rfl, if_pos rfl]
      rfl
    · rw [if_neg hk, if_neg hk, ih]

theorem keys_map_pair {α β : Type} (g : String → α → β) :
    ∀ (d : List (String × α)), (d.map (fun p => (p.1, g p.1 p.2))).map Prod.fst = d.map Prod.fst := by
  intro d
  induction d with
  | nil => rfl
  | cons p rest ih => simp only [List.map_cons, ih]

theorem transformAll_eq (ps : ScDict) :
    ∀ (d : List (String × FDF)), (∀ n ∈ d.map Prod.fst, (alookup ps n).isSome) →
      transformAll ps d =
        .ok (d.map (fun p => (p.1, transformF ((alookup ps p.1).getD dfltScaler) p.2))) := by
  intro d
  induction d with
  | nil => intro _; rfl
  | cons p rest ih =>
    intro h
    obtain ⟨n, F⟩ := p
    have h1 : (alookup ps n).isSome := h n (by simp)
    obtain ⟨sc, hsc⟩ := Option.isSome_iff_exists.mp h1
    have h2 := ih (fun m hm => h m (by simp [hm]))
    simp only [transformAll, hsc, h2, Except.bind, List.map_cons, Option.getD_some]
    rfl

theorem alookup_stdFitAll_isSome (sqrtF : ℚ → ℚ) (d : List (String × FDF)) (n : String)
    (h : n ∈ d.map Prod.fst) : (alookup (stdFitAll sqrtF d) n).isSome := by
  apply alookup_isSome_of_mem_keys
  unfold stdFitAll
  rw [keys_map_pair (fun _ F => stdFit sqrtF F) d]
  exact h

theorem alookup_mmFitAll_isSome (d : List (String × FDF)) (n : String)
    (h : n ∈ d.map Prod.fst) : (alookup (mmFitAll d) n).isSome := by
  apply alookup_isSome_of_mem_keys
  unfold mmFitAll
  rw [keys_map_pair (fun _ F => mmFit F) d]
  exact h

theorem normalizeData_standard_fit (sqrtF : ℚ → ℚ) (s0 : Option ScDict)
    (data : List (String × FDF)) :
    normalizeData sqrtF s0 data ("standard") true =
      .ok (some (stdFitAll sqrtF data),
        data.map (fun p =>
          (p.1, transformF ((alookup (stdFitAll sqrtF data) p.1).getD dfltScaler) p.2))) := by
  have ht := transformAll_eq (stdFitAll sqrtF data) data
    (fun n hn => alookup_stdFitAll_isSome sqrtF data n hn)
  show Except.bind (transformAll (stdFitAll sqrtF data) data)
      (fun out => Except.ok (some (stdFitAll sqrtF data), out)) = _
  rw [ht]
  rfl

theorem normalizeData_minmax_fit (sqrtF : ℚ → ℚ) (s0 : Option ScDict)
    (data : List (String × FDF)) :
    normalizeData sqrtF s0 data ("min_max") true =
      .ok (some (mmFitAll data),
        data.map (fun p =>
          (p.1, transformF ((alookup (mmFitAll data) p.1).getD dfltScaler) p.2))) := by
  have ht := transformAll_eq (mmFitAll data) data
    (fun n hn => alookup_mmFitAll_isSome data n hn)
  show Except.bind (transformAll (mmFitAll data) data)
      (fun out => Except.ok (some (mmFitAll data), out)) = _
  rw [ht]
  rfl

theorem normalizeData_no_fit (sqrtF : ℚ → ℚ) (ps : ScDict) (data : List (String × FDF))
    (t : String) (hs : ∀ n ∈ data.map Prod.fst, (alookup ps n).isSome) :
    normalizeData sqrtF (some ps) data t false =
      .ok (some ps,
        data.map (fun p => (p.1, transformF ((alookup ps p.1).getD dfltScaler) p.2))) := by
  have ht := transformAll_eq ps data hs
  show Except.bind (transformAll ps data) (fun out => Except.ok (some ps, out)) = _
  rw [ht]
  rfl

theorem normalizeData_bad_kind (sqrtF : ℚ → ℚ) (s0 : Option ScDict)
    (data : List (String × FDF)) (t : String)
    (h1 : ¬ t = "standard") (h2 : ¬ t = "min_max") :
    normalizeData sqrtF s0 data t true =
      .error ("ValueError: Invalid scaler_type. Choose standard or min_max.") := by
  unfold normalizeData
  rw [if_pos rfl, if_neg h1, if_neg h2]
  rfl

/-- C4: normalization fits the scaler parameters exactly once, on the training
cohort (the resulting state is the training fit, whatever state was stored
before), and the test cohort is transformed with exactly those stored
per-layer parameters: the `fit=False` call performs no fitting, returns the
stored scaler dictionary unchanged, and its output is the test data
transformed by the train-fitted parameters. -/
theorem normalize_fit_once_no_leak (sqrtF : ℚ → ℚ) (s0 : Option ScDict)
    (train test : List (String × FDF))
    (hk : ∀ n ∈ test.map Prod.fst, n ∈ train.map Prod.fst) :
    normalizeData sqrtF s0 train ("standard") true =
      .ok (some (stdFitAll sqrtF train),
        train.map (fun p =>
          (p.1, transformF ((alookup (stdFitAll sqrtF train) p.1).getD dfltScaler) p.2))) ∧
    normalizeData sqrtF (some (stdFitAll sqrtF train)) test ("standard") false =
      .ok (some (stdFitAll sqrtF train),
        test.map (fun p =>
          (p.1, transformF ((alookup (stdFitAll sqrtF train) p.1).getD dfltScaler) p.2))) := by
  constructor
  · exact normalizeData_standard_fit sqrtF s0 train
  · exact normalizeData_no_fit sqrtF (stdFitAll sqrtF train) test ("standard")
      (fun n hn => alookup_stdFitAll_isSome sqrtF train n (hk n hn))

/-- Witness for C4 on concrete one-layer cohorts. -/
theorem normalize_fit_once_no_leak_witness :
    (∀ n ∈ exTestF.map Prod.fst, n ∈ exTrainF.map Prod.fst) ∧
    (normalizeData id none exTrainF ("standard") true =
      .ok (some (stdFitAll id exTrainF),
        exTrainF.map (fun p =>
          (p.1, transformF ((alookup (stdFitAll id exTrainF) p.1).getD dfltScaler) p.2))) ∧
    normalizeData id (some (stdFitAll id exTrainF)) exTestF ("standard") false =
      .ok (some (stdFitAll id exTrainF),
        exTestF.map (fun p =>
          (p.1, transformF ((alookup (stdFitAll id exTrainF) p.1).getD dfltScaler) p.2)))) :=
  ⟨by decide, normalize_fit_once_no_leak id none exTrainF exTestF (by decide)⟩

/-- C8 counterexample: the scaler kind used by `import_data` is the hardcoded
string literal `"standard"`, a constant function of the configuration — the
`DataImporter.__init__` parameter list has no scaler-kind option — so even an
arbitrary fully-populated configuration yields standard-fitted parameters
(mean/scale), never min-max ones. -/
theorem import_scaler_hardcoded_counterexample :
    (importScalerType = fun _ : DIConfig => "standard") ∧
    exceptStateOf (importNormalizeStep id
        ⟨("p"), ["g"], true, true, some 1, some 5, 1 / 100000, 1 / 10⟩ none exTrainF exTestF) =
      some (some (stdFitAll id exTrainF)) ∧
    (stdFitAll id exTrainF).map (fun p => (p.1, scalerKind p.2)) =
      [("g", "standard-kind")] ∧
    (mmFitAll exTrainF).map (fun p => (p.1, scalerKind p.2)) =
      [("g", "minmax-kind")] :=
  ⟨rfl, rfl, rfl, rfl⟩

/-- C8 (amended): `normalize_data` itself dispatches on its `scaler_type`
argument between the standard and min-max kinds when fitting, and raises a
ValueError for any other value at fit time (when `fit=False` the argument is
ignored entirely); but `import_data` passes the hardcoded literal
`"standard"` — no constructor configuration option selects the scaler kind. -/
theorem normalize_scaler_dispatch_amended (sqrtF : ℚ → ℚ) (s0 : Option ScDict)
    (data : List (String × FDF)) (t : String) (c : DIConfig)
    (h1 : ¬ t = "standard") (h2 : ¬ t = "min_max") :
    normalizeData sqrtF s0 data t true =
      .error ("ValueError: Invalid scaler_type. Choose standard or min_max.") ∧
    exceptStateOf (normalizeData sqrtF s0 data ("standard") true) =
      some (some (stdFitAll sqrtF data)) ∧
    exceptStateOf (normalizeData sqrtF s0 data ("min_max") true) =
      some (some (mmFitAll data)) ∧
    normalizeData sqrtF s0 data t false = normalizeData sqrtF s0 data ("standard") false ∧
    importScalerType c = "standard" := by
  refine ⟨normalizeData_bad_kind sqrtF s0 data t h1 h2, ?_, ?_, rfl, rfl⟩
  · rw [normalizeData_standard_fit sqrtF s0 data]
    rfl
  · rw [normalizeData_minmax_fit sqrtF s0 data]
    rfl

/-- Witness for C8 (amended) at the unknown scaler kind `"minmax"`. -/
theorem normalize_scaler_dispatch_amended_witness :
    (¬ ("minmax" : String) = "standard") ∧ (¬ ("minmax" : String) = "min_max") ∧
    (normalizeData id none exTrainF ("minmax") true =
      .error ("ValueError: Invalid scaler_type. Choose standard or min_max.") ∧
    exceptStateOf (normalizeData id none exTrainF ("standard") true) =
      some (some (stdFitAll id exTrainF)) ∧
    exceptStateOf (normalizeData id none exTrainF ("min_max") true) =
      some (some (mmFitAll exTrainF)) ∧
    normalizeData id none exTrainF ("minmax") false =
      normalizeData id none exTrainF ("standard") false ∧
    importScalerType ⟨("p"), ["g"], true, true, some 1, some 5, 1 / 100000, 1 / 10⟩ =
      "standard") :=
  ⟨by decide, by decide,
   normalize_scaler_dispatch_amended id none exTrainF ("minmax")
     ⟨("p"), ["g"], true, true, some 1, some 5, 1 / 100000, 1 / 10⟩
     (by decide) (by decide)⟩

/-! ### Harmonization lemmas -/

theorem except_bind_ok {ε α β : Type} (a : α) (k : α → Except ε β) :
    (Except.ok a >>= k) = k a := rfl

theorem alookup_mem_keys_of_eq_some {α : Type} :
    ∀ (d : List (String × α)) (x : String) (v : α),
      alookup d x = some v → x ∈ d.map Prod.fst := by
  intro d
  induction d with
  | nil => intro x v h; simp [alookup] at h
  | cons p rest ih =>
    intro x v h
    obtain ⟨k, w⟩ := p
    simp only [alookup] at h
    simp only [List.map_cons, List.mem_cons]
    by_cases hk : k = x
    · exact Or.inl hk.symm
    · rw [if_neg hk] at h
      exact Or.inr (ih x v h)

theorem alookup_map_keys {β : Type} (h : String → β) :
    ∀ (ks : List String) (x : String), x ∈ ks →
      alookup (ks.map (fun k => (k, h k))) x = some (h x) := by
  intro ks
  induction ks with
  | nil => intro x hx; simp at hx
  | cons k rest ih =>
    intro x hx
    simp only [List.map_cons, alookup]
    by_cases hk : k = x
    · rw [if_pos hk, hk]
    · rw [if_neg hk]
      apply ih
      cases List.mem_cons.mp hx with
      | inl h1 => exact absurd h1.symm hk
      | inr h1 => exact h1

theorem contains_iff_mem (l : List String) (s : String) : l.contains s = true ↔ s ∈ l := by
  induction l with
  | nil => simp [List.contains]
  | cons x xs ih =>
    simp only [List.contains_cons, List.mem_cons, Bool.or_eq_true, beq_iff_eq, ih]

theorem mem_indexIntersection (idx1 idx2 : List String) (s : String) :
    s ∈ indexIntersection idx1 idx2 ↔ s ∈ idx1 ∧ s ∈ idx2 := by
  unfold indexIntersection
  rw [List.mem_filter]
  constructor
  · rintro ⟨h1, h2⟩
    exact ⟨h1, (contains_iff_mem idx2 s).mp h2⟩
  · rintro ⟨h1, h2⟩
    exact ⟨h1, (contains_iff_mem idx2 s).mpr h2⟩

theorem commonFeatures_eq (dat1 dat2 : List (String × FDF)) :
    ∀ (ts : List String),
      (∀ x ∈ ts, (alookup dat1 x).isSome ∧ (alookup dat2 x).isSome) →
      commonFeatures ts dat1 dat2 = .ok (ts.map (fun y =>
        (y, indexIntersection ((alookup dat1 y).getD ⟨[], [], []⟩).rowIds
          ((alookup dat2 y).getD ⟨[], [], []⟩).rowIds))) := by
  intro ts
  induction ts with
  | nil => intro _; rfl
  | cons x xs ih =>
    intro h
    obtain ⟨F1, hF1⟩ := Option.isSome_iff_exists.mp (h x (List.mem_cons_self _ _)).1
    obtain ⟨F2, hF2⟩ := Option.isSome_iff_exists.mp (h x (List.mem_cons_self _ _)).2
    have hrest := ih (fun y hy => h y (List.mem_cons_of_mem _ hy))
    simp only [commonFeatures, hF1, hF2, hrest, Except.bind, List.map_cons, Option.getD_some]
    rfl

theorem subsetToCommon_eq (common : List (String × List String)) :
    ∀ (d : List (String × FDF)),
      (∀ n ∈ d.map Prod.fst, (alookup common n).isSome) →
      subsetToCommon common d = .ok (d.map (fun p =>
        (p.1, locRows p.2 ((alookup common p.1).getD [])))) := by
  intro d
  induction d with
  | nil => intro _; rfl
  | cons p rest ih =>
    intro h
    obtain ⟨n, F⟩ := p
    obtain ⟨ids, hids⟩ := Option.isSome_iff_exists.mp (h n (by simp))
    have hrest := ih (fun m hm => h m (by simp [hm]))
    simp only [subsetToCommon, hids, hrest, Except.bind, List.map_cons, Option.getD_some]
    rfl

/-- C6: after `DataImporter.harmonize`, for a configured layer present in both
cohorts, the train and test feature-identifier sequences are identical; that
sequence is the intersection of the two cohorts' feature sets, ordered as the
identifiers appear in the training cohort's index
(`dat1[x].index.intersection(dat2[x].index)` keeps the calling index order). -/
theorem harmonize_feature_alignment (dataTypes : List String) (dat1 dat2 : List (String × FDF))
    (x : String) (F1 F2 : FDF)
    (h1 : dat1.map Prod.fst = dataTypes) (h2 : dat2.map Prod.fst = dataTypes)
    (hx1 : alookup dat1 x = some F1) (hx2 : alookup dat2 x = some F2) :
    ∃ d1 d2, harmonize dataTypes dat1 dat2 = .ok (d1, d2) ∧
      ∃ G1 G2, alookup d1 x = some G1 ∧ alookup d2 x = some G2 ∧
        G1.rowIds = G2.rowIds ∧
        G1.rowIds = indexIntersection F1.rowIds F2.rowIds ∧
        (∀ s, s ∈ G1.rowIds ↔ s ∈ F1.rowIds ∧ s ∈ F2.rowIds) := by
  have hsome : ∀ y ∈ dataTypes, (alookup dat1 y).isSome ∧ (alookup dat2 y).isSome := by
    intro y hy
    exact ⟨alookup_isSome_of_mem_keys dat1 y (h1 ▸ hy),
      alookup_isSome_of_mem_keys dat2 y (h2 ▸ hy)⟩
  have hc := commonFeatures_eq dat1 dat2 dataTypes hsome
  have hxty : x ∈ dataTypes := h1 ▸ alookup_mem_keys_of_eq_some dat1 x F1 hx1
  have hcx : alookup (dataTypes.map (fun y =>
      (y, indexIntersection ((alookup dat1 y).getD ⟨[], [], []⟩).rowIds
        ((alookup dat2 y).getD ⟨[], [], []⟩).rowIds))) x =
      some (indexIntersection F1.rowIds F2.rowIds) := by
    rw [alookup_map_keys (fun y =>
      indexIntersection ((alookup dat1 y).getD ⟨[], [], []⟩).rowIds
        ((alookup dat2 y).getD ⟨[], [], []⟩).rowIds) dataTypes x hxty]
    rw [hx1, hx2]
    rfl
  have hkc1 : ∀ n ∈ dat1.map Prod.fst, (alookup (dataTypes.map (fun y =>
      (y, indexIntersection ((alookup dat1 y).getD ⟨[], [], []⟩).rowIds
        ((alookup dat2 y).getD ⟨[], [], []⟩).rowIds))) n).isSome := by
    intro n hn
    rw [alookup_map_keys _ dataTypes n (h1 ▸ hn)]
    rfl
  have hkc2 : ∀ n ∈ dat2.map Prod.fst, (alookup (dataTypes.map (fun y =>
      (y, indexIntersection ((alookup dat1 y).getD ⟨[], [], []⟩).rowIds
        ((alookup dat2 y).getD ⟨[], [], []⟩).rowIds))) n).isSome := by
    intro n hn
    rw [alookup_map_keys _ dataTypes n (h2 ▸ hn)]
    rfl
  have hs1 := subsetToCommon_eq _ dat1 hkc1
  have hs2 := subsetToCommon_eq _ dat2 hkc2
  refine ⟨dat1.map (fun p => (p.1, locRows p.2 ((alookup (dataTypes.map (fun y =>
      (y, indexIntersection ((alookup dat1 y).getD ⟨[], [], []⟩).rowIds
        ((alookup dat2 y).getD ⟨[], [], []⟩).rowIds))) p.1).getD []))),
    dat2.map (fun p => (p.1, locRows p.2 ((alookup (dataTypes.map (fun y =>
      (y, indexIntersection ((alookup dat1 y).getD ⟨[], [], []⟩).rowIds
        ((alookup dat2 y).getD ⟨[], [], []⟩).rowIds))) p.1).getD []))), ?_, ?_⟩
  · unfold harmonize
    rw [hc, except_bind_ok]
    rw [hs1, except_bind_ok]
    rw [hs2, except_bind_ok]
  · have hg1 : alookup (dat1.map (fun p => (p.1, locRows p.2 ((alookup (dataTypes.map (fun y =>
        (y, indexIntersection ((alookup dat1 y).getD ⟨[], [], []⟩).rowIds
          ((alookup dat2 y).getD ⟨[], [], []⟩).rowIds))) p.1).getD [])))) x =
        some (locRows F1 (indexIntersection F1.rowIds F2.rowIds)) := by
      rw [alookup_map_pair (fun n F => locRows F ((alookup (dataTypes.map (fun y =>
        (y, indexIntersection ((alookup dat1 y).getD ⟨[], [], []⟩).rowIds
          ((alookup dat2 y).getD ⟨[], [], []⟩).rowIds))) n).getD [])) dat1 x]
      rw [hx1, hcx]
      rfl
    have hg2 : alookup (dat2.map (fun p => (p.1, locRows p.2 ((alookup (dataTypes.map (fun y =>
        (y, indexIntersection ((alookup dat1 y).getD ⟨[], [], []⟩).rowIds
          ((alookup dat2 y).getD ⟨[], [], []⟩).rowIds))) p.1).getD [])))) x =
        some (locRows F2 (indexIntersection F1.rowIds F2.rowIds)) := by
      rw [alookup_map_pair (fun n F => locRows F ((alookup (dataTypes.map (fun y =>
        (y, indexIntersection ((alookup dat1 y).getD ⟨[], [], []⟩).rowIds
          ((alookup dat2 y).getD ⟨[], [], []⟩).rowIds))) n).getD [])) dat2 x]
      rw [hx2, hcx]
      rfl
    refine ⟨_, _, hg1, hg2, rfl, rfl, fun s => mem_indexIntersection F1.rowIds F2.rowIds s⟩

/-- Witness for C6: one shared layer, train features `[f1, f2]`, test features
`[f2, f3]`; the intersection in train order is `[f2]`. -/
theorem harmonize_feature_alignment_witness :
    ([("g", (⟨["f1", "f2"], ["a"], [[1], [2]]⟩ : FDF))].map Prod.fst = ["g"] ∧
     [("g", (⟨["f2", "f3"], ["b"], [[3], [4]]⟩ : FDF))].map Prod.fst = ["g"] ∧
     alookup [("g", (⟨["f1", "f2"], ["a"], [[1], [2]]⟩ : FDF))] ("g") =
       some ⟨["f1", "f2"], ["a"], [[1], [2]]⟩ ∧
     alookup [("g", (⟨["f2", "f3"], ["b"], [[3], [4]]⟩ : FDF))] ("g") =
       some ⟨["f2", "f3"], ["b"], [[3], [4]]⟩) ∧
    (∃ d1 d2, harmonize ["g"] [("g", (⟨["f1", "f2"], ["a"], [[1], [2]]⟩ : FDF))]
        [("g", (⟨["f2", "f3"], ["b"], [[3], [4]]⟩ : FDF))] = .ok (d1, d2) ∧
      ∃ G1 G2, alookup d1 ("g") = some G1 ∧ alookup d2 ("g") = some G2 ∧
        G1.rowIds = G2.rowIds ∧
        G1.rowIds = indexIntersection ["f1", "f2"] ["f2", "f3"] ∧
        (∀ s, s ∈ G1.rowIds ↔ s ∈ (["f1", "f2"] : List String) ∧
          s ∈ (["f2", "f3"] : List String))) :=
  ⟨⟨rfl, rfl, rfl, rfl⟩,
   harmonize_feature_alignment ["g"] [("g", ⟨["f1", "f2"], ["a"], [[1], [2]]⟩)]
     [("g", ⟨["f2", "f3"], ["b"], [[3], [4]]⟩)] ("g")
     ⟨["f1", "f2"], ["a"], [[1], [2]]⟩ ⟨["f2", "f3"], ["b"], [[3], [4]]⟩
     rfl rfl rfl rfl⟩

/-! ### Cleanup lemmas -/

theorem alookup_withIdx_map {β : Type} (f : ℕ → β) :
    ∀ (c0 : List String) (k : ℕ) (s : String), c0.Nodup → s ∈ c0 →
      alookup ((withIdx k c0).map (fun q => (q.2, f q.1))) s = some (f (k + posOf c0 s)) := by
  intro c0
  induction c0 with
  | nil => intro k s _ hs; simp at hs
  | cons x xs ih =>
    intro k s hnd hs
    simp only [withIdx, List.map_cons, alookup, posOf]
    by_cases hx : x = s
    · rw [if_pos hx, if_pos hx]
      simp
    · rw [if_neg hx, if_neg hx]
      have hs2 : s ∈ xs := by
        cases List.mem_cons.mp hs with
        | inl h => exact absurd h.symm hx
        | inr h => exact h
      rw [ih (k + 1) s (List.Nodup.of_cons hnd) hs2]
      have harith : k + 1 + posOf xs s = k + (posOf xs s + 1) := by omega
      rw [harith]

theorem cleanupData_cols_of_uniform (vt na : ℚ) (d : List (String × NDF)) (c0 : List String)
    (hall : ∀ p ∈ d, p.2.cols = c0) :
    ∀ q ∈ cleanupData vt na d,
      q.2.cols = c0.filter (fun u => commonMaskAt (cleanupMasks vt na d) u) := by
  intro q hq
  unfold cleanupData at hq
  rw [List.mem_map] at hq
  obtain ⟨r, hr, hrq⟩ := hq
  unfold cleanupFirstPass at hr
  rw [List.mem_map] at hr
  obtain ⟨p0, hp0, hp0r⟩ := hr
  rw [← hrq, ← hp0r]
  simp only [applyMask]
  rw [hall p0 hp0]

theorem commonMask_all_informative (vt na : ℚ) (c0 : List String) (s : String)
    (hnd : c0.Nodup) (hs : s ∈ c0) :
    ∀ (d : List (String × NDF)), (∀ p ∈ d, p.2.cols = c0) →
      commonMaskAt (cleanupMasks vt na d) s =
        d.all (fun p => informativeAt (cleanRows vt na p.2.rows) (posOf c0 s)) := by
  intro d
  induction d with
  | nil => intro _; rfl
  | cons p rest ih =>
    intro hall
    have hcols := hall p (List.mem_cons_self _ _)
    have htail := ih (fun q hq => hall q (List.mem_cons_of_mem _ hq))
    unfold commonMaskAt cleanupMasks cleanupFirstPass at htail ⊢
    simp only [List.map_cons, List.all_cons]
    rw [htail]
    have hmask : alookup (layerMask ⟨p.2.cols, cleanRows vt na p.2.rows⟩) s =
        some (informativeAt (cleanRows vt na p.2.rows) (posOf c0 s)) := by
      unfold layerMask
      simp only
      rw [hcols]
      rw [alookup_withIdx_map (informativeAt (cleanRows vt na p.2.rows)) c0 0 s hnd hs]
      simp
    rw [hmask]
    rfl

/-- C7 (amended): when every layer of the input shares the same sample-column
sequence (same ids in the same order), `cleanup_data` drops the same columns
from every layer: every output layer's column sequence is that shared sequence
filtered by the common mask — hence all output layers have pairwise identical
sample sequences — and the common mask keeps exactly the samples whose
per-layer standard deviation (after feature cleanup) is nonzero and non-NaN in
every layer.  (With merely equal column sets in different orders, each layer
keeps its own order; see the counterexample.) -/
theorem cleanup_common_mask_aligned (vt na : ℚ) (d : List (String × NDF)) (c0 : List String)
    (s : String) (hall : ∀ p ∈ d, p.2.cols = c0) (hnd : c0.Nodup) (hs : s ∈ c0) :
    (∀ q ∈ cleanupData vt na d,
      q.2.cols = c0.filter (fun u => commonMaskAt (cleanupMasks vt na d) u)) ∧
    (∀ q ∈ cleanupData vt na d, ∀ r ∈ cleanupData vt na d, q.2.cols = r.2.cols) ∧
    commonMaskAt (cleanupMasks vt na d) s =
      d.all (fun p => informativeAt (cleanRows vt na p.2.rows) (posOf c0 s)) := by
  refine ⟨cleanupData_cols_of_uniform vt na d c0 hall, ?_,
    commonMask_all_informative vt na c0 s hnd hs d hall⟩
  intro q hq r hr
  rw [cleanupData_cols_of_uniform vt na d c0 hall q hq,
    cleanupData_cols_of_uniform vt na d c0 hall r hr]

/-- Witness for C7 (amended) on the concrete same-order input `exD7b`. -/
theorem cleanup_common_mask_aligned_witness :
    (∀ p ∈ exD7b, p.2.cols = ["a", "b"]) ∧ (["a", "b"] : List String).Nodup ∧
    ("a" : String) ∈ (["a", "b"] : List String) ∧
    ((∀ q ∈ cleanupData 0 1 exD7b,
       q.2.cols = (["a", "b"] : List String).filter
         (fun u => commonMaskAt (cleanupMasks 0 1 exD7b) u)) ∧
     (∀ q ∈ cleanupData 0 1 exD7b, ∀ r ∈ cleanupData 0 1 exD7b, q.2.cols = r.2.cols) ∧
     commonMaskAt (cleanupMasks 0 1 exD7b) ("a") =
       exD7b.all (fun p => informativeAt (cleanRows 0 1 p.2.rows) (posOf ["a", "b"] ("a")))) :=
  ⟨by decide, by decide, by decide,
   cleanup_common_mask_aligned 0 1 exD7b ["a", "b"] ("a") (by decide) (by decide) (by decide)⟩

/-! ### Rational evaluation atoms for the cleanup counterexample -/

theorem someVals_pair (x y : ℚ) : someVals [some x, some y] = [x, y] := rfl

theorem varSamp_pair (x y : ℚ) : varSamp [x, y] = some ((x - y) * (x - y) / 2) := by
  unfold varSamp meanQ qsum
  simp only [List.map_cons, List.map_nil, List.foldr_cons, List.foldr_nil, List.length_cons,
    List.length_nil]
  norm_num
  ring

theorem cleanKeepVar_pair (x y : ℚ) (h : ¬ x = y) :
    (match varSamp (someVals [some x, some y]) with
      | none => false
      | some v => decide ((0 : ℚ) < v)) = true := by
  rw [someVals_pair, varSamp_pair]
  show decide ((0 : ℚ) < (x - y) * (x - y) / 2) = true
  rw [decide_eq_true_eq]
  exact div_pos (mul_self_pos.mpr (sub_ne_zero.mpr h)) two_pos

theorem cleanKeepNa_pair (x y : ℚ) : decide (naFrac [some x, some y] < 1) = true := by
  rw [decide_eq_true_eq]
  norm_num [naFrac, List.countP_cons, List.countP_nil, Option.isNone]

theorem informative_pair (x y : ℚ) (h : ¬ x = y) : informativeCol [some x, some y] = true := by
  unfold informativeCol
  rw [someVals_pair, varSamp_pair]
  show decide (¬ (x - y) * (x - y) / 2 = 0) = true
  rw [decide_eq_true_eq]
  intro hc
  apply sub_ne_zero.mpr h
  cases div_eq_zero_iff.mp hc with
  | inl h1 => exact mul_self_eq_zero.mp h1
  | inr h2 => exact absurd h2 two_ne_zero

/-- C7 counterexample: the two layers of `exD7` hold the same sample set
(third conjunct) with columns in different orders; all samples are informative
in every layer, yet `cleanup_data` returns the layers with their own column
orders `[a, b]` and `[b, a]`, which are not the same sequence — refuting
"identical sample sets in the same order" under a set-level precondition. -/
theorem cleanup_order_counterexample :
    ((cleanupData 0 1 exD7).map (fun p => p.2.cols) = [["a", "b"], ["b", "a"]]) ∧
    (["a", "b"] : List String) ≠ ["b", "a"] ∧
    ((["a", "b"] : List String).all (fun s => (["b", "a"] : List String).contains s) = true ∧
     (["b", "a"] : List String).all (fun s => (["a", "b"] : List String).contains s) = true) := by
  refine ⟨?_, by decide, by decide, by decide⟩
  have hk1 := cleanKeepVar_pair 1 2 (by norm_num)
  have hk2 := cleanKeepVar_pair 5 3 (by norm_num)
  have hk3 := cleanKeepVar_pair 10 20 (by norm_num)
  have hk4 := cleanKeepVar_pair 7 4 (by norm_num)
  have hn1 := cleanKeepNa_pair (1 : ℚ) 2
  have hn2 := cleanKeepNa_pair (5 : ℚ) 3
  have hn3 := cleanKeepNa_pair (10 : ℚ) 20
  have hn4 := cleanKeepNa_pair (7 : ℚ) 4
  have hclean1 : cleanRows 0 1 [("g1", [some 1, some 2]), ("g2", [some 5, some 3])] =
      [("g1", [some 1, some 2]), ("g2", [some 5, some 3])] := by
    unfold cleanRows
    simp only [List.filter_cons, List.filter_nil, hk1, hk2, hn1, hn2, if_true,
      List.map_cons, List.map_nil]
  have hclean2 : cleanRows 0 1 [("g1", [some 10, some 20]), ("g2", [some 7, some 4])] =
      [("g1", [some 10, some 20]), ("g2", [some 7, some 4])] := by
    unfold cleanRows
    simp only [List.filter_cons, List.filter_nil, hk3, hk4, hn3, hn4, if_true,
      List.map_cons, List.map_nil]
  have hm1 : layerMask ⟨["a", "b"], [("g1", [some 1, some 2]), ("g2", [some 5, some 3])]⟩ =
      [("a", true), ("b", true)] := by
    simp only [layerMask, withIdx, informativeAt, colAt, List.map_cons, List.map_nil,
      List.getD_cons_zero, List.getD_cons_succ]
    rw [informative_pair 1 5 (by norm_num), informative_pair 2 3 (by norm_num)]
  have hm2 : layerMask ⟨["b", "a"], [("g1", [some 10, some 20]), ("g2", [some 7, some 4])]⟩ =
      [("b", true), ("a", true)] := by
    simp only [layerMask, withIdx, informativeAt, colAt, List.map_cons, List.map_nil,
      List.getD_cons_zero, List.getD_cons_succ]
    rw [informative_pair 10 7 (by norm_num), informative_pair 20 4 (by norm_num)]
  have hcm : cleanupMasks 0 1 exD7 = [[("a", true), ("b", true)], [("b", true), ("a", true)]] := by
    unfold cleanupMasks cleanupFirstPass exD7
    simp only [List.map_cons, List.map_nil]
    rw [hclean1, hclean2, hm1, hm2]
  unfold cleanupData
  rw [hcm]
  rfl

end Flexynesis
